import Mathlib

/-!
Shallow embedding of the immich-auto-uploader core (src/config.py,
src/file_watcher.py, src/immich_client.py, src/file_processor.py).

Modelling conventions:
* Python strings are Lean `String`s; byte streams are `List Nat`.
* Filesystem state observed at a given call is passed explicitly
  (`FsView` for existence/regular-file checks at validation time).
* Resolved absolute paths are lists of path components (the result of
  `Path.resolve()`); `p` lies in the tree rooted at `q` iff `q` is a
  component-prefix of `p` (this includes `p = q`, matching
  `q in p.parents or p == q`).
* Wall-clock instants and float-valued configuration are rationals.
* `st_mtime` timestamps are modelled as integer microseconds since the
  epoch (CPython rounds aware datetimes to microsecond precision).
-/

/-- A contiguous-subsequence test on byte lists, embedding Python's
`pat in data` for `bytes`. -/
def containsSeq (pat : List Nat) : List Nat → Bool
  | [] => pat.isEmpty
  | a :: rest => pat.isPrefixOf (a :: rest) || containsSeq pat rest

/-- Python `str.lower`, character-wise (ASCII case mapping). -/
def lowerChars (cs : List Char) : List Char := cs.map Char.toLower

/-- String form of `lowerChars`. -/
def strToLower (s : String) : String := ⟨lowerChars s.data⟩

/-- Python `str.split(sep)` for a single-character separator:
`"".split(".") = [""]`, `".jpg".split(".") = ["", "jpg"]`. -/
def splitOnChar (sep : Char) : List Char → List (List Char)
  | [] => [[]]
  | c :: rest =>
    let r := splitOnChar sep rest
    if c = sep then [] :: r
    else
      match r with
      | [] => [[c]]
      | h :: t => (c :: h) :: t

/-- Configuration fields used by the verified core
(src/config.py `Config.__init__`). -/
structure Config where
  supported_extensions : List String
  max_file_size_mb : Nat
  /-- Field `archive_directory_resolved` of the Python class, as resolved
  path components. -/
  archive_directory_resolved : List String
  file_stability_wait_seconds : ℚ
  file_stability_wait_seconds_video : ℚ
  min_stability_wait_size_mb : ℚ
  verify_video_integrity : Bool

/-- src/config.py `Config.get_file_size_limit_bytes`. -/
def Config.get_file_size_limit_bytes (c : Config) : Nat :=
  c.max_file_size_mb * 1024 * 1024

/-- src/config.py `Config.is_supported_file`:
`extension = filename.lower().split(".")[-1] if "." in filename else ""`,
then membership in `supported_extensions`. -/
def Config.is_supported_file (c : Config) (filename : String) : Bool :=
  let extension : String :=
    if filename.data.contains '.' then
      ⟨(splitOnChar '.' (lowerChars filename.data)).getLastD []⟩
    else ""
  c.supported_extensions.contains extension

/-- src/config.py `Config.is_in_archive_directory`, on an already
resolved path: `archive_resolved in path.parents or path == archive_resolved`,
i.e. the resolved archive directory is a component-prefix of the path. -/
def Config.is_in_archive_directory (c : Config) (resolved_path : List String) : Bool :=
  c.archive_directory_resolved.isPrefixOf resolved_path

/-- Python `PurePath.suffix` of a file name: the part from the last dot,
provided that dot is neither the first nor the last character. -/
def pathSuffix (name : String) : String :=
  let cs := name.data
  let afterLastDot := cs.reverse.takeWhile (· ≠ '.')
  let i := cs.length - afterLastDot.length - 1
  if cs.contains '.' ∧ 0 < i ∧ i < cs.length - 1 then ⟨cs.drop i⟩
  else ""

/-- Python `PurePath.stem`: the name without its suffix. -/
def pathStem (name : String) : String :=
  ⟨name.data.take (name.data.length - (pathSuffix name).data.length)⟩

/-- src/file_watcher.py `FileInfo.__init__`:
`self.extension = self.path.suffix.lower().lstrip('.')`. -/
def fileExtension (name : String) : String :=
  ⟨(lowerChars (pathSuffix name).data).dropWhile (· = '.')⟩

/-- src/file_watcher.py `FileInfo`: snapshot of a file taken at
detection time.  `modified_time` is in integer microseconds. -/
structure FileInfo where
  /-- String form of `self.path` (the absolute path). -/
  path : String
  /-- The resolved form of `path`, as components. -/
  resolved : List String
  name : String
  size_bytes : Nat
  modified_time : Nat

/-- The filesystem facts `is_valid` observes at call time. -/
structure FsView where
  /-- Result of `self.path.exists()`. -/
  fsExists : Bool
  /-- Result of `self.path.is_file()`. -/
  isRegularFile : Bool

/-- src/file_watcher.py `FileInfo.is_valid`: exists, is a regular file,
captured size within limit, supported extension, not inside the archive
directory. -/
def FileInfo.is_valid (f : FileInfo) (fs : FsView) (c : Config) : Bool :=
  if !fs.fsExists then false
  else if !fs.isRegularFile then false
  else if f.size_bytes > c.get_file_size_limit_bytes then false
  else if !(c.is_supported_file f.name) then false
  else if c.is_in_archive_directory f.resolved then false
  else true

/-- The spec's §3 validity predicate, stated from its words: file exists
and is a regular file, `size_bytes` at most the byte limit, the
FileRecord's `extension` field in the supported set compared
case-insensitively, and the resolved path not inside the archive tree. -/
def specValid (f : FileInfo) (fs : FsView) (c : Config) : Prop :=
  fs.fsExists = true ∧ fs.isRegularFile = true ∧
  f.size_bytes ≤ c.get_file_size_limit_bytes ∧
  strToLower (fileExtension f.name) ∈ c.supported_extensions.map strToLower ∧
  ¬ (c.archive_directory_resolved <+: f.resolved)

/-- The amended validity characterisation: the extension test is the one
`is_supported_file` performs on the file NAME (last dot-separated
component of the lowercased name, for names containing a dot, compared
verbatim against the configured list). -/
def specValidAmended (f : FileInfo) (fs : FsView) (c : Config) : Prop :=
  fs.fsExists = true ∧ fs.isRegularFile = true ∧
  f.size_bytes ≤ c.get_file_size_limit_bytes ∧
  (f.name.data.contains '.' ∧
    (⟨(splitOnChar '.' (lowerChars f.name.data)).getLastD []⟩ : String)
      ∈ c.supported_extensions) ∧
  ¬ (c.archive_directory_resolved <+: f.resolved)

/-- The default `SUPPORTED_EXTENSIONS` list from src/config.py. -/
def defaultExtensions : List String :=
  ["jpg", "jpeg", "png", "gif", "bmp", "tiff", "webp",
   "mp4", "mov", "avi", "mkv", "wmv", "flv", "m4v", "3gp"]

/-- A concrete configuration with the defaults from src/config.py. -/
def defaultConfig : Config :=
  { supported_extensions := defaultExtensions
    max_file_size_mb := 1000
    archive_directory_resolved := ["", "archive"]
    file_stability_wait_seconds := 5
    file_stability_wait_seconds_video := 30
    min_stability_wait_size_mb := 100
    verify_video_integrity := true }

/-! ### Stability detection (src/file_watcher.py `ImmichFileHandler`) -/

/-- Loop state of `_wait_for_file_stability`: last observed size, last
observed partial-content hash, and the running stability timer. -/
structure StabState where
  lastSize : Nat
  lastHash : Option String
  stableStart : Option ℚ
  deriving DecidableEq

/-- One iteration's observation of the polled file: it vanished, the
`stat` call raised, or it was seen with a size, the value the partial
hash would have, and the current wall-clock time. -/
inductive PollObs where
  | vanished
  | statError
  | seen (size : Nat) (hash : Option String) (now : ℚ)

/-- Outcome of one loop iteration: the function returns, or continues
with an updated state. -/
inductive StepRes where
  | done (b : Bool)
  | cont (st : StabState)
  deriving DecidableEq

/-- src/file_watcher.py `ImmichFileHandler._calculate_required_stability`:
extended video wait iff the size in MiB reaches
`min_stability_wait_size_mb`. -/
def calculate_required_stability (c : Config) (file_size : Nat) : ℚ :=
  if (file_size : ℚ) / (1024 * 1024) ≥ c.min_stability_wait_size_mb then
    c.file_stability_wait_seconds_video
  else
    c.file_stability_wait_seconds

/-- One iteration of the `while True` loop of
`_wait_for_file_stability` (src/file_watcher.py lines 129-175). -/
def stabStep (c : Config) (st : StabState) (p : PollObs) : StepRes :=
  match p with
  | .vanished => .done true
  | .statError => .done false
  | .seen current_size hash now =>
    let hashChecked := current_size > 10 * 1024 * 1024
    let current_hash := if hashChecked then hash else st.lastHash
    let content_changed : Bool := hashChecked && decide (hash ≠ st.lastHash)
    if current_size ≠ st.lastSize ∨ content_changed = true then
      .cont ⟨current_size, current_hash, none⟩
    else
      let start := st.stableStart.getD now
      if now - start ≥ calculate_required_stability c current_size then
        .done true
      else
        .cont ⟨st.lastSize, st.lastHash, some start⟩

/-- Runs the polling loop over a finite observation trace. -/
def runStability (c : Config) : StabState → List PollObs → StepRes
  | st, [] => .cont st
  | st, p :: ps =>
    match stabStep c st p with
    | .done b => .done b
    | .cont st' => runStability c st' ps

/-- src/file_watcher.py `ImmichFileHandler._wait_for_file_stability`:
entry non-existence returns false; an exception on the entry `stat`
(modelled by `entryStat = none`) is caught and returns false; otherwise
the loop runs from the initial size/hash. A trace too short for the
loop to decide yields `none`. -/
def wait_for_file_stability (c : Config) (existsAtEntry : Bool)
    (entryStat : Option (Nat × Option String)) (polls : List PollObs) :
    Option Bool :=
  if !existsAtEntry then some false
  else
    match entryStat with
    | none => some false
    | some (sz, h) =>
      match runStability c ⟨sz, h, none⟩ polls with
      | .done b => some b
      | .cont _ => none

/-! ### Upload client (src/immich_client.py) -/

/-- src/immich_client.py `ImmichUploadResult`. -/
structure ImmichUploadResult where
  success : Bool
  message : String
  asset_id : Option String
  deriving DecidableEq

/-- What `response.json()` does on a 200/201 body: raise `ValueError`
(unparsable), produce a dict whose `.get('id')` is `id`, or produce a
non-dict value so that `.get` raises `AttributeError` with text `err`. -/
inductive JsonBody where
  | invalid
  | obj (id : Option String)
  | nonObj (err : String)

/-- The observable outcome of the HTTP POST in `upload_asset`: a
response with status, parsed-body behaviour and raw text, or a raised
`requests.exceptions.RequestException` with text `err`. -/
inductive HttpOutcome where
  | http (status : Nat) (body : JsonBody) (text : String)
  | requestExc (err : String)

/-- src/immich_client.py `ImmichClient.upload_asset`, lines 108-147:
interpretation of the HTTP outcome as an `ImmichUploadResult`. The
`AttributeError` raised by `result_data.get` on a non-dict JSON body is
caught by the function's final `except Exception` handler. -/
def upload_asset_response : HttpOutcome → ImmichUploadResult
  | .http status body text =>
    if status = 200 ∨ status = 201 then
      match body with
      | .obj id => ⟨true, "Upload successful", id⟩
      | .invalid => ⟨true, "Upload successful", none⟩
      | .nonObj err => ⟨false, "Unexpected error: " ++ err, none⟩
    else if status = 400 then
      ⟨false, "Bad request - check file format and API parameters", none⟩
    else if status = 401 then
      ⟨false, "Unauthorized - check API key", none⟩
    else if status = 409 then
      ⟨true, "Asset already exists", none⟩
    else
      ⟨false, "HTTP " ++ toString status ++ ": " ++ text, none⟩
  | .requestExc err => ⟨false, "Network error: " ++ err, none⟩

/-- Byte sequence of `b'moov'`. -/
def moovBytes : List Nat := [109, 111, 111, 118]

/-- Byte sequence of `b'ftyp'`. -/
def ftypBytes : List Nat := [102, 116, 121, 112]

/-- src/immich_client.py `ImmichClient._check_mp4_header`. -/
def check_mp4_header (header : List Nat) : Bool :=
  decide (header.length ≥ 8) && ((header.drop 4).take 4 == ftypBytes)

/-- src/immich_client.py `ImmichClient._check_avi_header`. -/
def check_avi_header (header : List Nat) : Bool :=
  decide (header.length ≥ 12) && (header.take 4 == [82, 73, 70, 70])
    && ((header.drop 8).take 4 == [65, 86, 73, 32])

/-- src/immich_client.py `ImmichClient._check_mkv_header`. -/
def check_mkv_header (header : List Nat) : Bool :=
  decide (header.length ≥ 4) && (header.take 4 == [26, 69, 223, 163])

/-- src/immich_client.py `ImmichClient._validate_mp4_file`: for files
under 1 MiB, search the whole content for `moov`; otherwise search the
first MiB and then the last `min(file_size, 1 MiB)` bytes. -/
def validate_mp4_file (data : List Nat) : Bool × String :=
  let file_size := data.length
  if file_size < 1024 * 1024 then
    if !containsSeq moovBytes data then
      (false, "Missing moov atom - file may be incomplete")
    else (true, "Valid MP4 file")
  else
    if containsSeq moovBytes (data.take (1024 * 1024)) then
      (true, "Valid MP4 file")
    else if containsSeq moovBytes
        (data.drop (file_size - min file_size (1024 * 1024))) then
      (true, "Valid MP4 file")
    else (false, "Missing moov atom - file may be incomplete")

/-- src/immich_client.py `ImmichClient._validate_video_file` on the
file's byte content (the final fallback full sequential read always
succeeds in this I/O-error-free model). -/
def validate_video_file (data : List Nat) : Bool × String :=
  let file_size := data.length
  if file_size < 1024 then (false, "File too small to be a valid video")
  else
    let header := data.take 12
    if header.length < 12 then (false, "File too small to read header")
    else if check_mp4_header header then validate_mp4_file data
    else if check_avi_header header then (true, "Valid AVI file")
    else if check_mkv_header header then (true, "Valid MKV file")
    else if (header.drop 4).take 8 == [102, 116, 121, 112, 113, 116, 32, 32]
      then (true, "Valid MOV file")
    else (true, "File readable")

/-! ### Upload form data (src/immich_client.py `upload_asset` lines 74-84) -/

/-- Decimal digit character for a digit value. -/
def digitChar (n : Nat) : Char :=
  if n = 0 then '0' else if n = 1 then '1' else if n = 2 then '2'
  else if n = 3 then '3' else if n = 4 then '4' else if n = 5 then '5'
  else if n = 6 then '6' else if n = 7 then '7' else if n = 8 then '8'
  else '9'

/-- Decimal digits of `n`, most significant first (fuelled). -/
def natCharsAux : Nat → Nat → List Char
  | 0, _ => []
  | fuel + 1, n => if n = 0 then [] else natCharsAux fuel (n / 10) ++ [digitChar (n % 10)]

/-- Decimal digits of `n`, most significant first. -/
def natChars (n : Nat) : List Char :=
  if n = 0 then ['0'] else natCharsAux n n

/-- Left-pads a digit string with zeros to width `k` (printf `%0kd`). -/
def padZeros (k : Nat) (cs : List Char) : List Char :=
  List.replicate (k - cs.length) '0' ++ cs

/-- Civil date (year, month, day) from days since 1970-01-01
(the conversion `datetime.fromtimestamp` performs, proleptic
Gregorian). -/
def civilFromDays (z : Nat) : Nat × Nat × Nat :=
  let z' := z + 719468
  let era := z' / 146097
  let doe := z' % 146097
  let yoe := (doe - doe / 1460 + doe / 36524 - doe / 146097) / 365
  let y := yoe + era * 400
  let doy := doe - (365 * yoe + yoe / 4 - yoe / 100)
  let mp := (5 * doy + 2) / 153
  let d := doy - (153 * mp + 2) / 5 + 1
  let m := if mp < 10 then mp + 3 else mp - 9
  (if m ≤ 2 then y + 1 else y, m, d)

/-- Python `str.replace` (left-to-right, non-overlapping), fuelled by
the length of the scanned list. -/
def replaceAllAux (pat rep : List Char) : Nat → List Char → List Char
  | _, [] => []
  | 0, l => l
  | fuel + 1, c :: rest =>
    if pat.isPrefixOf (c :: rest) ∧ pat ≠ [] then
      rep ++ replaceAllAux pat rep fuel (List.drop (pat.length - 1) rest)
    else
      c :: replaceAllAux pat rep fuel rest

/-- Python `s.replace(pat, rep)` on char lists. -/
def replaceAll (pat rep l : List Char) : List Char :=
  replaceAllAux pat rep l.length l

/-- src/immich_client.py `ImmichClient._format_timestamp`:
`datetime.fromtimestamp(ts, tz=utc).isoformat().replace('+00:00', 'Z')`,
on a timestamp in integer microseconds.  `isoformat` emits the
six-digit fractional part only when the microsecond field is nonzero.
`isoChars` is the output of `isoformat()` without its `+00:00` zone
suffix; `format_timestamp` appends the suffix and applies the
replacement. -/
def isoChars (micros : Nat) : List Char :=
  let sec := micros / 1000000
  let usec := micros % 1000000
  let days := sec / 86400
  let rem := sec % 86400
  let ymd := civilFromDays days
  padZeros 4 (natChars ymd.1) ++ ['-'] ++ padZeros 2 (natChars ymd.2.1) ++ ['-'] ++
  padZeros 2 (natChars ymd.2.2) ++ ['T'] ++ padZeros 2 (natChars (rem / 3600)) ++
  [':'] ++ padZeros 2 (natChars (rem % 3600 / 60)) ++ [':'] ++
  padZeros 2 (natChars (rem % 60)) ++
  (if usec = 0 then [] else '.' :: padZeros 6 (natChars usec))

/-- The full `_format_timestamp` result (see `isoChars`). -/
def format_timestamp (micros : Nat) : String :=
  ⟨replaceAll ('+' :: "00:00".data) ['Z'] (isoChars micros ++ ('+' :: "00:00".data))⟩

/-- The multipart form fields built in `upload_asset` (lines 78-84). -/
structure UploadData where
  deviceAssetId : String
  deviceId : String
  fileCreatedAt : String
  fileModifiedAt : String
  isFavorite : String

/-- src/immich_client.py `upload_asset` lines 74-84 together with
`_generate_device_asset_id`; the MD5 digest function is passed in as
`md5hex`. -/
def upload_data (md5hex : String → String) (f : FileInfo) : UploadData :=
  { deviceAssetId :=
      md5hex (f.path ++ "_" ++ toString f.size_bytes ++ "_" ++ toString f.modified_time)
    deviceId := "immich-auto-uploader"
    fileCreatedAt := format_timestamp f.modified_time
    fileModifiedAt := format_timestamp f.modified_time
    isFavorite := "false" }

/-! ### Processing queue and worker (src/file_processor.py) -/

/-- src/file_processor.py `ProcessingStats` counters. -/
structure ProcessingStats where
  total_files : Nat
  successful_uploads : Nat
  failed_uploads : Nat
  skipped_files : Nat
  archived_files : Nat
  deriving DecidableEq

/-- src/file_processor.py `FileProcessor._get_file_key`. -/
def get_file_key (f : FileInfo) : String :=
  f.path ++ "_" ++ toString f.size_bytes ++ "_" ++ toString f.modified_time

/-- The mutable state of a `FileProcessor`. -/
structure ProcessorState where
  is_running : Bool
  processed_files : List String
  processing_queue : List FileInfo
  stats : ProcessingStats

/-- src/file_processor.py `FileProcessor.process_file`: ignore when not
running; skip (counting `skipped_files`) when the dedup key is already
in `processed_files`; otherwise enqueue and count `total_files`. -/
def process_file (st : ProcessorState) (f : FileInfo) : ProcessorState :=
  if !st.is_running then st
  else if st.processed_files.contains (get_file_key f) then
    { st with stats := { st.stats with skipped_files := st.stats.skipped_files + 1 } }
  else
    { st with
      processing_queue := st.processing_queue ++ [f]
      stats := { st.stats with total_files := st.stats.total_files + 1 } }

/-- Outcome of the `shutil.move` call inside `_archive_file`. -/
inductive MoveOutcome where
  | ok
  | ioError (err : String)

/-- src/file_processor.py `FileProcessor._archive_file`, reduced to its
success value: the `except` clause catches any failure of the move and
returns `False` instead of raising (lines 216-218). -/
def archive_file (move : MoveOutcome) : Bool :=
  match move with
  | .ok => true
  | .ioError _ => false

/-- Conflict name `f"{base_name}_{counter}{extension}"` built by
`_archive_file`. -/
def conflictName (stem suffix : String) (n : Nat) : String :=
  stem ++ "_" ++ toString n ++ suffix

/-- The `while archive_path.exists()` loop of `_archive_file`, fuelled:
tries `stem_counter suffix`, `stem_(counter+1) suffix`, ... until a
name not in `taken` is found. -/
def resolveArchiveConflict (taken : String → Bool) (stem suffix : String) :
    Nat → Nat → Option String
  | _, 0 => none
  | counter, fuel + 1 =>
    let cand := conflictName stem suffix counter
    if taken cand then resolveArchiveConflict taken stem suffix (counter + 1) fuel
    else some cand

/-- src/file_processor.py `FileProcessor._archive_file` lines 194-208:
the archive file name chosen for a source file named `name`, given
which names already exist in the archive directory (`taken`).  `stem`
and `suffix` are `file_info.path.stem` / `.suffix`. -/
def archive_target_name (taken : String → Bool) (name : String) (fuel : Nat) :
    Option String :=
  if taken name then
    resolveArchiveConflict taken (pathStem name) (pathSuffix name) 1 fuel
  else some name

/-- src/file_processor.py `FileProcessor._process_single_file`: skip
invalid records; otherwise mark the dedup key processed, upload, and on
success count the upload and attempt archival.  All exceptions are
caught inside the function (its own `except` and the one inside
`_archive_file`), so it is a total function on its observable inputs. -/
def process_single_file (st : ProcessorState) (f : FileInfo) (fs : FsView)
    (c : Config) (upload : ImmichUploadResult) (move : MoveOutcome) :
    ProcessorState :=
  if !(f.is_valid fs c) then
    { st with stats := { st.stats with skipped_files := st.stats.skipped_files + 1 } }
  else
    let st1 := { st with processed_files := get_file_key f :: st.processed_files }
    if upload.success then
      let st2 :=
        { st1 with stats :=
          { st1.stats with successful_uploads := st1.stats.successful_uploads + 1 } }
      if archive_file move then
        { st2 with stats :=
          { st2.stats with archived_files := st2.stats.archived_files + 1 } }
      else st2
    else
      { st1 with stats := { st1.stats with failed_uploads := st1.stats.failed_uploads + 1 } }

/-! ### Claim theorems -/

/-- C5: the stability check returns false when the path does not exist
at entry; a disappearance observed during the polling loop (from any
loop state) returns true, also from the top-level entry point; an I/O
error while stat'ing during the loop returns false. -/
theorem C5_stability_exit_policy :
    (∀ (c : Config) (entry : Option (Nat × Option String)) (polls : List PollObs),
      wait_for_file_stability c false entry polls = some false) ∧
    (∀ (c : Config) (st : StabState) (polls : List PollObs),
      runStability c st (PollObs.vanished :: polls) = StepRes.done true) ∧
    (∀ (c : Config) (sz : Nat) (h : Option String) (polls : List PollObs),
      wait_for_file_stability c true (some (sz, h)) (PollObs.vanished :: polls) =
        some true) ∧
    (∀ (c : Config) (st : StabState) (polls : List PollObs),
      runStability c st (PollObs.statError :: polls) = StepRes.done false) ∧
    (∀ (c : Config) (sz : Nat) (h : Option String) (polls : List PollObs),
      wait_for_file_stability c true (some (sz, h)) (PollObs.statError :: polls) =
        some false) :=
  ⟨fun _ _ _ => rfl, fun _ _ _ => rfl, fun _ _ _ _ => rfl,
   fun _ _ _ => rfl, fun _ _ _ _ => rfl⟩

/-- C2 counterexample: a FileRecord captured with `size_bytes = 0` and
`modified_time = 0` still passes `is_valid` when a regular file exists
at the path at validation time — `is_valid` never inspects the zero
values, so the claimed "always fails validation" is false. -/
theorem C2_counterexample :
    FileInfo.is_valid
      ⟨"/watch/a.jpg", ["", "watch", "a.jpg"], "a.jpg", 0, 0⟩
      ⟨true, true⟩ defaultConfig = true := by decide

/-- C2 amended: a FileRecord with `size_bytes = 0` or
`modified_time = 0` fails validation whenever no file exists at the
path at validation time; the zero values themselves are never
inspected by `is_valid`. -/
theorem C2_vanished_record_validation (f : FileInfo) (fs : FsView) (c : Config)
    (_hzero : f.size_bytes = 0 ∨ f.modified_time = 0)
    (hgone : fs.fsExists = false) :
    f.is_valid fs c = false := by
  simp [FileInfo.is_valid, hgone]

/-- Witness for C2: the amended theorem applied at a concrete record. -/
theorem C2_vanished_record_validation_witness :
    FileInfo.is_valid
      ⟨"/watch/a.jpg", ["", "watch", "a.jpg"], "a.jpg", 0, 0⟩
      ⟨false, true⟩ defaultConfig = false :=
  C2_vanished_record_validation _ _ _ (Or.inl rfl) rfl

/-- C9: when upload succeeded but the archive move raises, the error is
absorbed by `_archive_file` (it returns false instead of raising), and
the per-file processing records exactly one extra successful upload —
`archived_files`, `failed_uploads` and `skipped_files` are unchanged. -/
theorem C9_upload_success_archive_failure
    (st : ProcessorState) (f : FileInfo) (fs : FsView) (c : Config)
    (upload : ImmichUploadResult) (err : String)
    (hvalid : f.is_valid fs c = true) (hup : upload.success = true) :
    archive_file (MoveOutcome.ioError err) = false ∧
    (process_single_file st f fs c upload (MoveOutcome.ioError err)).stats =
      { st.stats with successful_uploads := st.stats.successful_uploads + 1 } := by
  refine ⟨rfl, ?_⟩
  simp [process_single_file, hvalid, hup, archive_file]

/-- Witness for C9 at a concrete state, record and upload result. -/
theorem C9_upload_success_archive_failure_witness :
    archive_file (MoveOutcome.ioError "disk full") = false ∧
    (process_single_file ⟨true, [], [], ⟨0, 0, 0, 0, 0⟩⟩
      ⟨"/watch/a.jpg", ["", "watch", "a.jpg"], "a.jpg", 100, 1700000000000000⟩
      ⟨true, true⟩ defaultConfig ⟨true, "Upload successful", none⟩
      (MoveOutcome.ioError "disk full")).stats = ⟨0, 1, 0, 0, 0⟩ :=
  C9_upload_success_archive_failure _ _ _ _ _ _ (by decide) rfl

/-- C4 counterexample: a 201 response whose body parses as JSON but not
as a JSON object (for example a bare `null`) makes
`result_data.get` raise `AttributeError`, which the final
`except Exception` handler converts into a FAILURE result — the claim
says every 200/201 response yields success. -/
theorem C4_counterexample :
    (upload_asset_response (HttpOutcome.http 201
      (JsonBody.nonObj "attribute error") "null")).success = false := rfl

/-- C4 amended: 200/201 yields success with `asset_id` from the body's
id field when the body parses as a JSON OBJECT, success with no
asset id when the body is unparsable, and a failure result when the
body parses to a non-object; 409 yields success with no asset id;
400 and 401 yield failure; any other status yields a failure whose
message includes the status and the body text; a network/timeout
exception yields a failure whose message includes the error text. -/
theorem C4_response_interpretation :
    (∀ (s : Nat) (id : Option String) (text : String), s = 200 ∨ s = 201 →
      upload_asset_response (.http s (.obj id) text) =
        ⟨true, "Upload successful", id⟩) ∧
    (∀ (s : Nat) (text : String), s = 200 ∨ s = 201 →
      upload_asset_response (.http s .invalid text) =
        ⟨true, "Upload successful", none⟩) ∧
    (∀ (s : Nat) (err text : String), s = 200 ∨ s = 201 →
      (upload_asset_response (.http s (.nonObj err) text)).success = false) ∧
    (∀ (body : JsonBody) (text : String),
      upload_asset_response (.http 409 body text) =
        ⟨true, "Asset already exists", none⟩) ∧
    (∀ (body : JsonBody) (text : String),
      (upload_asset_response (.http 400 body text)).success = false) ∧
    (∀ (body : JsonBody) (text : String),
      (upload_asset_response (.http 401 body text)).success = false) ∧
    (∀ (s : Nat) (body : JsonBody) (text : String),
      s ≠ 200 → s ≠ 201 → s ≠ 400 → s ≠ 401 → s ≠ 409 →
      (upload_asset_response (.http s body text)).success = false ∧
      (toString s).data <:+: (upload_asset_response (.http s body text)).message.data ∧
      text.data <:+: (upload_asset_response (.http s body text)).message.data) ∧
    (∀ (err : String),
      (upload_asset_response (.requestExc err)).success = false ∧
      err.data <:+: (upload_asset_response (.requestExc err)).message.data) := by
  refine ⟨?_, ?_, ?_, fun _ _ => rfl, fun _ _ => rfl, fun _ _ => rfl, ?_, ?_⟩
  · rintro s id text (rfl | rfl) <;> rfl
  · rintro s text (rfl | rfl) <;> rfl
  · rintro s err text (rfl | rfl) <;> rfl
  · intro s body text h200 h201 h400 h401 h409
    have hmsg : upload_asset_response (.http s body text) =
        ⟨false, "HTTP " ++ toString s ++ ": " ++ text, none⟩ := by
      simp [upload_asset_response, h200, h201, h400, h401, h409]
    rw [hmsg]
    refine ⟨rfl, ⟨"HTTP ".data, ": ".data ++ text.data, ?_⟩,
      ⟨"HTTP ".data ++ (toString s).data ++ ": ".data, [], ?_⟩⟩ <;>
      simp [String.data_append, List.append_assoc]
  · intro err
    exact ⟨rfl, ⟨"Network error: ".data, [],
      by simp [upload_asset_response, String.data_append]⟩⟩

/-- Witness for C4: the amended interpretation at concrete responses. -/
theorem C4_response_interpretation_witness :
    upload_asset_response (HttpOutcome.http 201 (JsonBody.obj (some "abc")) "") =
      ⟨true, "Upload successful", some "abc"⟩ ∧
    (upload_asset_response (HttpOutcome.http 500 JsonBody.invalid "boom")).success
      = false :=
  ⟨C4_response_interpretation.1 201 (some "abc") "" (Or.inr rfl),
   (C4_response_interpretation.2.2.2.2.2.2.1 500 JsonBody.invalid "boom"
     (by decide) (by decide) (by decide) (by decide) (by decide)).1⟩

/-- C1 counterexample: submitting the same record twice while the
worker has not yet dequeued the first submission enqueues it twice and
increments `total_files` twice, with no skip — `process_file` consults
`processed_files`, which only `_process_single_file` (the worker)
updates.  This refutes the "regardless of whether the worker has yet
dequeued" part of the claim. -/
theorem C1_counterexample :
    ((process_file (process_file
        ⟨true, [], [], ⟨0, 0, 0, 0, 0⟩⟩
        ⟨"/watch/a.jpg", ["", "watch", "a.jpg"], "a.jpg", 100, 1700⟩)
        ⟨"/watch/a.jpg", ["", "watch", "a.jpg"], "a.jpg", 100, 1700⟩).stats.total_files
      = 2 ∧
     (process_file (process_file
        ⟨true, [], [], ⟨0, 0, 0, 0, 0⟩⟩
        ⟨"/watch/a.jpg", ["", "watch", "a.jpg"], "a.jpg", 100, 1700⟩)
        ⟨"/watch/a.jpg", ["", "watch", "a.jpg"], "a.jpg", 100, 1700⟩).stats.skipped_files
      = 0) := by decide

/-- C1 amended: a second submission with an identical dedup key
increments `skipped_files` and leaves `total_files` (and the queue)
unchanged once the key is in `processed_files`, i.e. once the worker
has dequeued the first submission and marked it; while the first
submission is still pending, the duplicate is enqueued again and
`total_files` increments. -/
theorem C1_dedup_requires_processed (st : ProcessorState) (f : FileInfo)
    (hrun : st.is_running = true) :
    (get_file_key f ∈ st.processed_files →
      process_file st f =
        { st with stats :=
          { st.stats with skipped_files := st.stats.skipped_files + 1 } }) ∧
    (get_file_key f ∉ st.processed_files →
      process_file st f =
        { st with
          processing_queue := st.processing_queue ++ [f]
          stats := { st.stats with total_files := st.stats.total_files + 1 } }) := by
  constructor
  · intro hmem
    simp [process_file, hrun, hmem]
  · intro hmem
    simp [process_file, hrun, hmem]

/-- Witness for C1: the amended behaviour at concrete states, for both
an already-processed key and a still-pending key. -/
theorem C1_dedup_requires_processed_witness :
    process_file ⟨true, ["/watch/a.jpg_100_1700"], [], ⟨1, 0, 0, 0, 0⟩⟩
        ⟨"/watch/a.jpg", ["", "watch", "a.jpg"], "a.jpg", 100, 1700⟩ =
      ⟨true, ["/watch/a.jpg_100_1700"], [], ⟨1, 0, 0, 1, 0⟩⟩ :=
  (C1_dedup_requires_processed _ _ rfl).1 (by decide)

/-- The conflict-resolution loop of `_archive_file` returns the first
free candidate: if every `stem_i suffix` for `counter ≤ i < N` is taken
and `stem_N suffix` is free, it returns `stem_N suffix`. -/
theorem resolveArchiveConflict_eq (taken : String → Bool) (stem suffix : String) :
    ∀ (fuel counter N : Nat), counter ≤ N → N < counter + fuel →
    (∀ i, counter ≤ i → i < N → taken (conflictName stem suffix i) = true) →
    taken (conflictName stem suffix N) = false →
    resolveArchiveConflict taken stem suffix counter fuel =
      some (conflictName stem suffix N) := by
  intro fuel
  induction fuel with
  | zero => intro counter N h1 h2 _ _; omega
  | succ fuel ih =>
    intro counter N h1 h2 htaken hfree
    rcases Nat.eq_or_lt_of_le h1 with rfl | hlt
    · simp [resolveArchiveConflict, hfree]
    · have ht : taken (conflictName stem suffix counter) = true :=
        htaken counter le_rfl hlt
      simp only [resolveArchiveConflict, ht, if_true]
      exact ih (counter + 1) N hlt (by omega)
        (fun i hi1 hi2 => htaken i (by omega) hi2) hfree

/-- C8: archiving a file whose name is already taken chooses
`stem_N suffix` for the smallest positive `N` whose name is free (the
loop tries N = 1, 2, ... in order); a free original name is kept. -/
theorem C8_archive_conflict_naming (taken : String → Bool) (name : String)
    (N fuel : Nat) :
    (taken name = false → archive_target_name taken name fuel = some name) ∧
    (taken name = true → 1 ≤ N → N < 1 + fuel →
      (∀ i, 1 ≤ i → i < N →
        taken (conflictName (pathStem name) (pathSuffix name) i) = true) →
      taken (conflictName (pathStem name) (pathSuffix name) N) = false →
      archive_target_name taken name fuel =
        some (conflictName (pathStem name) (pathSuffix name) N)) := by
  constructor
  · intro hfree
    simp [archive_target_name, hfree]
  · intro htaken h1 h2 hall hfree
    simp only [archive_target_name, htaken, if_true]
    exact resolveArchiveConflict_eq taken _ _ fuel 1 N h1 h2 hall hfree

/-- Witness for C8: `test.jpg` archives to `test_1.jpg` when `test.jpg`
is taken, and to `test_2.jpg` when `test_1.jpg` is taken as well. -/
theorem C8_archive_conflict_naming_witness :
    archive_target_name (· == "test.jpg") "test.jpg" 10 = some "test_1.jpg" ∧
    archive_target_name (fun s => s == "test.jpg" || s == "test_1.jpg")
      "test.jpg" 10 = some "test_2.jpg" :=
  ⟨(C8_archive_conflict_naming (· == "test.jpg") "test.jpg" 1 10).2
      (by decide) le_rfl (by omega)
      (fun i hi1 hi2 => absurd (lt_of_le_of_lt hi1 hi2) (lt_irrefl 1))
      (by decide),
   (C8_archive_conflict_naming (fun s => s == "test.jpg" || s == "test_1.jpg")
      "test.jpg" 2 10).2
      (by decide) (by omega) (by omega)
      (fun i hi1 hi2 => by
        have hi : i = 1 := by omega
        subst hi; decide)
      (by decide)⟩

/-- The extension test of `is_supported_file`, in conjunction form, for
configurations whose extension list has no empty entry (the config
loader strips empty items). -/
theorem is_supported_file_iff (c : Config) (hno : "" ∉ c.supported_extensions)
    (name : String) :
    c.is_supported_file name = true ↔
      (name.data.contains '.' ∧
       (⟨(splitOnChar '.' (lowerChars name.data)).getLastD []⟩ : String)
         ∈ c.supported_extensions) := by
  unfold Config.is_supported_file
  by_cases hdot : '.' ∈ name.data
  · simp [hdot]
  · simp [hdot, hno]

/-- C3 counterexample: for the dotfile name `.jpg` the FileRecord's
`extension` field is empty (Python `Path.suffix` of a leading-dot name
is empty), which is not in the supported set, yet `is_valid` accepts
the record because `is_supported_file` works on the lowercased NAME
split at dots (last component `jpg`). -/
theorem C3_counterexample :
    FileInfo.is_valid
      ⟨"/watch/.jpg", ["", "watch", ".jpg"], ".jpg", 100, 1700⟩
      ⟨true, true⟩ defaultConfig = true ∧
    ¬ specValid
      ⟨"/watch/.jpg", ["", "watch", ".jpg"], ".jpg", 100, 1700⟩
      ⟨true, true⟩ defaultConfig := by
  constructor
  · decide
  · rintro ⟨-, -, -, hext, -⟩
    revert hext; decide

/-- C3 amended: `is_valid` returns true iff the file exists and is a
regular file, the captured `size_bytes` is at most the configured byte
limit, the file NAME contains a dot and the last dot-separated
component of its lowercased name is verbatim in the configured
extension list, and the resolved path is not inside the resolved
archive directory tree (the archive directory itself included) —
stated for configurations without an empty extension entry. -/
theorem C3_validity_characterisation (f : FileInfo) (fs : FsView) (c : Config)
    (hno : "" ∉ c.supported_extensions) :
    f.is_valid fs c = true ↔ specValidAmended f fs c := by
  unfold FileInfo.is_valid specValidAmended
  rcases fs with ⟨ex, reg⟩
  cases ex <;> cases reg <;>
    simp [Config.is_in_archive_directory, is_supported_file_iff c hno,
      List.isPrefixOf_iff_prefix]

/-- Witness for C3: the amended characterisation at a concrete record
and the default configuration. -/
theorem C3_validity_characterisation_witness :
    FileInfo.is_valid
        ⟨"/watch/a.jpg", ["", "watch", "a.jpg"], "a.jpg", 100, 1700⟩
        ⟨true, true⟩ defaultConfig = true ↔
      specValidAmended
        ⟨"/watch/a.jpg", ["", "watch", "a.jpg"], "a.jpg", 100, 1700⟩
        ⟨true, true⟩ defaultConfig :=
  C3_validity_characterisation _ _ _ (by decide)

/-- An MP4-signature byte stream of length at least 1024 reaches the
dedicated MP4 validator. -/
theorem validate_video_file_mp4 (data : List Nat)
    (hlen : 1024 ≤ data.length)
    (hmp4 : (data.drop 4).take 4 = ftypBytes) :
    validate_video_file data = validate_mp4_file data := by
  have h1 : ¬ data.length < 1024 := by omega
  have hlen12 : (data.take 12).length = 12 := by
    simp [List.length_take]; omega
  have h2 : ¬ (data.take 12).length < 12 := by omega
  have hheader : check_mp4_header (data.take 12) = true := by
    unfold check_mp4_header
    have hd : (data.take 12).drop 4 = (data.drop 4).take 8 := by
      rw [List.drop_take]
    have ht : ((data.take 12).drop 4).take 4 = (data.drop 4).take 4 := by
      rw [hd, List.take_take]; norm_num
    simp [hlen12, ht, hmp4]
  have h2' : ¬ data.length < 12 := by omega
  simp [validate_video_file, h1, h2, h2', hheader]

/-- C7: an MP4 stream (length at least 1024, `ftyp` at offset 4) with
no `moov` in its first MiB nor in its last `min(size, 1 MiB)` bytes
fails validation with the missing-moov-atom message; with `moov`
present in one of those regions it passes as a valid MP4 file.  (For
streams under 1 MiB both regions are the whole stream.) -/
theorem C7_mp4_moov_validation (data : List Nat)
    (hlen : 1024 ≤ data.length)
    (hmp4 : (data.drop 4).take 4 = ftypBytes) :
    (containsSeq moovBytes (data.take (1024 * 1024)) = false →
     containsSeq moovBytes
       (data.drop (data.length - min data.length (1024 * 1024))) = false →
     validate_video_file data =
       (false, "Missing moov atom - file may be incomplete")) ∧
    (containsSeq moovBytes (data.take (1024 * 1024)) = true ∨
     containsSeq moovBytes
       (data.drop (data.length - min data.length (1024 * 1024))) = true →
     validate_video_file data = (true, "Valid MP4 file")) := by
  rw [validate_video_file_mp4 data hlen hmp4]
  by_cases hsmall : data.length < 1024 * 1024
  · have htake : data.take (1024 * 1024) = data :=
      List.take_of_length_le (by omega)
    have hdrop : data.drop (data.length - min data.length (1024 * 1024)) = data := by
      have : min data.length (1024 * 1024) = data.length := by omega
      simp [this]
    rw [htake, hdrop]
    constructor
    · intro hf _
      simp [validate_mp4_file, hsmall, hf]
    · intro hp
      have hp' : containsSeq moovBytes data = true := by
        rcases hp with h | h <;> exact h
      simp [validate_mp4_file, hsmall, hp']
  · constructor
    · intro hf hl
      simp [validate_mp4_file, hsmall, hf, hl]
    · intro hp
      rcases hp with h | h
      · simp [validate_mp4_file, hsmall, h]
      · by_cases hfirst : containsSeq moovBytes (data.take (1024 * 1024)) = true
        · simp [validate_mp4_file, hsmall, hfirst]
        · have hfirst' : containsSeq moovBytes (data.take (1024 * 1024)) = false :=
            by simpa using hfirst
          simp [validate_mp4_file, hsmall, hfirst', h]

set_option maxRecDepth 40000 in
/-- Witness for C7: a 1024-byte `ftyp` stream with no `moov` fails
with the missing-moov message; inserting `moov` makes it pass. -/
theorem C7_mp4_moov_validation_witness :
    validate_video_file
        (List.replicate 4 0 ++ ftypBytes ++ List.replicate 1016 0) =
      (false, "Missing moov atom - file may be incomplete") ∧
    validate_video_file
        (List.replicate 4 0 ++ ftypBytes ++ moovBytes ++ List.replicate 1012 0) =
      (true, "Valid MP4 file") :=
  ⟨(C7_mp4_moov_validation _ (by decide) (by decide)).1 (by decide) (by decide),
   (C7_mp4_moov_validation _ (by decide) (by decide)).2 (Or.inl (by decide))⟩

/-- A poll that observes a changed size (with the hash value unchanged
from the stored one) updates the size and resets the stability timer. -/
theorem stabStep_changed_same_hash (c : Config) (st : StabState) (size : Nat)
    (t : ℚ) (hne : size ≠ st.lastSize) :
    stabStep c st (.seen size st.lastHash t) = .cont ⟨size, st.lastHash, none⟩ := by
  unfold stabStep
  simp [hne]

/-- An unchanged poll with no running timer starts the timer at the
poll's time (when the required duration is positive). -/
theorem stabStep_unchanged_start (c : Config) (sz : Nat) (hh : Option String)
    (t : ℚ) (hreq : 0 < calculate_required_stability c sz) :
    stabStep c ⟨sz, hh, none⟩ (.seen sz hh t) = .cont ⟨sz, hh, some t⟩ := by
  unfold stabStep
  have h1 : ¬ (calculate_required_stability c sz ≤ t - t) := by
    simpa using hreq.not_le
  simp [h1, hreq]

/-- An unchanged poll with a running timer returns true exactly when
the elapsed time reaches the required stability duration. -/
theorem stabStep_unchanged_run (c : Config) (sz : Nat) (hh : Option String)
    (start t : ℚ) :
    stabStep c ⟨sz, hh, some start⟩ (.seen sz hh t) =
      if calculate_required_stability c sz ≤ t - start then .done true
      else .cont ⟨sz, hh, some start⟩ := by
  unfold stabStep
  simp

/-- Splitting a stability run at a list append. -/
theorem runStability_append (c : Config) : ∀ (l1 : List PollObs) (st : StabState)
    (l2 : List PollObs),
    runStability c st (l1 ++ l2) =
      match runStability c st l1 with
      | .done b => .done b
      | .cont st' => runStability c st' l2 := by
  intro l1
  induction l1 with
  | nil => intro st l2; simp [runStability]
  | cons p ps ih =>
    intro st l2
    simp only [List.cons_append, runStability]
    cases stabStep c st p <;> simp [ih]

/-- Once the file is stable with the timer running, any sequence of
unchanged polls followed by one whose elapsed time meets the required
duration makes the loop return true. -/
theorem runStability_stable_tail (c : Config) (sz : Nat) (hh : Option String)
    (start : ℚ) : ∀ (mids : List PollObs),
    (∀ p ∈ mids, ∃ t, p = PollObs.seen sz hh t) →
    ∀ (tlast : ℚ), calculate_required_stability c sz ≤ tlast - start →
    runStability c ⟨sz, hh, some start⟩ (mids ++ [.seen sz hh tlast]) =
      .done true := by
  intro mids
  induction mids with
  | nil =>
    intro _ tlast ht
    simp [runStability, stabStep_unchanged_run, ht]
  | cons p ps ih =>
    intro hall tlast ht
    obtain ⟨t, rfl⟩ := hall p (List.mem_cons_self _ _)
    simp only [List.cons_append, runStability, stabStep_unchanged_run]
    by_cases hc : calculate_required_stability c sz ≤ t - start
    · rw [if_pos hc]
    · rw [if_neg hc]
      exact ih (fun q hq => hall q (List.mem_cons_of_mem _ hq)) tlast ht

/-- C6: after three consecutive size-changing polls and a first
unchanged poll at time `t4`, the loop state carries the stability
timer started exactly at `t4`; appending any run of unchanged polls
and a final poll at `t5` with `t5 - t4` at least the required duration
makes the whole stability check return true; the required duration is
the extended video wait exactly when the size in MiB reaches the
configured threshold, and the base wait otherwise. -/
theorem C6_growing_then_stable (c : Config) (s0 s1 s2 s3 : Nat)
    (h : Option String) (t1 t2 t3 t4 t5 : ℚ)
    (h10 : s1 ≠ s0) (h21 : s2 ≠ s1) (h32 : s3 ≠ s2)
    (hreq : 0 < calculate_required_stability c s3)
    (hd : calculate_required_stability c s3 ≤ t5 - t4) :
    (runStability c ⟨s0, h, none⟩
        [.seen s1 h t1, .seen s2 h t2, .seen s3 h t3, .seen s3 h t4] =
      StepRes.cont ⟨s3, h, some t4⟩) ∧
    (∀ mids : List PollObs, (∀ p ∈ mids, ∃ t, p = PollObs.seen s3 h t) →
      wait_for_file_stability c true (some (s0, h))
        ([.seen s1 h t1, .seen s2 h t2, .seen s3 h t3, .seen s3 h t4] ++
          mids ++ [.seen s3 h t5]) = some true) ∧
    (∀ size : Nat,
      c.min_stability_wait_size_mb * (1024 * 1024) ≤ (size : ℚ) →
      calculate_required_stability c size = c.file_stability_wait_seconds_video) ∧
    (∀ size : Nat,
      (size : ℚ) < c.min_stability_wait_size_mb * (1024 * 1024) →
      calculate_required_stability c size = c.file_stability_wait_seconds) ∧
    (∀ (st : StabState) (size : Nat) (t : ℚ), size ≠ st.lastSize →
      stabStep c st (.seen size st.lastHash t) =
        .cont ⟨size, st.lastHash, none⟩) := by
  have e1 : stabStep c ⟨s0, h, none⟩ (.seen s1 h t1) = .cont ⟨s1, h, none⟩ :=
    stabStep_changed_same_hash c ⟨s0, h, none⟩ s1 t1 h10
  have e2 : stabStep c ⟨s1, h, none⟩ (.seen s2 h t2) = .cont ⟨s2, h, none⟩ :=
    stabStep_changed_same_hash c ⟨s1, h, none⟩ s2 t2 h21
  have e3 : stabStep c ⟨s2, h, none⟩ (.seen s3 h t3) = .cont ⟨s3, h, none⟩ :=
    stabStep_changed_same_hash c ⟨s2, h, none⟩ s3 t3 h32
  have e4 : stabStep c ⟨s3, h, none⟩ (.seen s3 h t4) = .cont ⟨s3, h, some t4⟩ :=
    stabStep_unchanged_start c s3 h t4 hreq
  have hfour : runStability c ⟨s0, h, none⟩
      [.seen s1 h t1, .seen s2 h t2, .seen s3 h t3, .seen s3 h t4] =
      StepRes.cont ⟨s3, h, some t4⟩ := by
    simp only [runStability, e1, e2, e3, e4]
  refine ⟨hfour, ?_, ?_, ?_, fun st size t hne =>
    stabStep_changed_same_hash c st size t hne⟩
  · intro mids hall
    have hrun : runStability c ⟨s0, h, none⟩
        ([.seen s1 h t1, .seen s2 h t2, .seen s3 h t3, .seen s3 h t4] ++
          mids ++ [.seen s3 h t5]) = .done true := by
      rw [List.append_assoc, runStability_append, hfour]
      exact runStability_stable_tail c s3 h t4 mids hall t5 hd
    simp only [List.cons_append, List.nil_append] at hrun
    simp [wait_for_file_stability, hrun]
  · intro size hge
    unfold calculate_required_stability
    rw [if_pos]
    rw [ge_iff_le, le_div_iff₀ (by norm_num : (0 : ℚ) < 1024 * 1024)]
    exact hge
  · intro size hlt
    unfold calculate_required_stability
    rw [if_neg]
    rw [ge_iff_le, le_div_iff₀ (by norm_num : (0 : ℚ) < 1024 * 1024)]
    exact not_le.mpr hlt

/-- Witness for C6: a file growing 113 → 126 → 139 bytes and then
constant, with the final poll 5 seconds after the first unchanged one,
is declared stable under the default configuration; a 200 MiB file
requires the 30-second video wait, a 139-byte file the 5-second base
wait. -/
theorem C6_growing_then_stable_witness :
    (wait_for_file_stability defaultConfig true (some (100, none))
      [.seen 113 none 1, .seen 126 none 2, .seen 139 none 3, .seen 139 none 4,
       .seen 139 none 5, .seen 139 none 9] = some true) ∧
    calculate_required_stability defaultConfig (200 * 1024 * 1024) = 30 ∧
    calculate_required_stability defaultConfig 139 = 5 ∧
    stabStep defaultConfig ⟨139, none, some 4⟩ (.seen 152 none 6) =
      .cont ⟨152, none, none⟩ := by
  have hreq : 0 < calculate_required_stability defaultConfig 139 := by
    norm_num [calculate_required_stability, defaultConfig]
  have hbase := C6_growing_then_stable defaultConfig 100 113 126 139 none
    1 2 3 4 9 (by norm_num) (by norm_num) (by norm_num) hreq
    (by norm_num [calculate_required_stability, defaultConfig])
  refine ⟨?_, ?_, ?_, ?_⟩
  · have := hbase.2.1 [.seen 139 none 5] ?_
    · simpa using this
    · intro p hp
      simp at hp
      exact ⟨5, hp⟩
  · exact hbase.2.2.1 (200 * 1024 * 1024) (by norm_num [defaultConfig])
  · exact hbase.2.2.2.1 139 (by norm_num [defaultConfig])
  · exact hbase.2.2.2.2 ⟨139, none, some 4⟩ 152 6 (by norm_num)

/-- Digit characters are never `+`. -/
theorem digitChar_ne_plus (n : Nat) : digitChar n ≠ '+' := by
  unfold digitChar
  split_ifs <;> decide

/-- Decimal digit strings contain no `+` (fuelled form). -/
theorem natCharsAux_ne_plus : ∀ (fuel n : Nat), '+' ∉ natCharsAux fuel n := by
  intro fuel
  induction fuel with
  | zero => intro n; simp [natCharsAux]
  | succ fuel ih =>
    intro n
    unfold natCharsAux
    by_cases h : n = 0
    · simp [h]
    · simp only [h, if_false]
      intro hmem
      rcases List.mem_append.mp hmem with hm | hm
      · exact ih _ hm
      · simp only [List.mem_singleton] at hm
        exact digitChar_ne_plus _ hm.symm

/-- Decimal digit strings contain no `+`. -/
theorem natChars_ne_plus (n : Nat) : '+' ∉ natChars n := by
  unfold natChars
  split_ifs
  · decide
  · exact natCharsAux_ne_plus n n

/-- Zero padding introduces no `+`. -/
theorem padZeros_ne_plus (k : Nat) (cs : List Char) (h : '+' ∉ cs) :
    '+' ∉ padZeros k cs := by
  unfold padZeros
  intro hmem
  rcases List.mem_append.mp hmem with hm | hm
  · exact absurd (List.eq_of_mem_replicate hm) (by decide)
  · exact h hm

/-- Concatenation preserves freedom from `+`. -/
theorem not_plus_append {l1 l2 : List Char} (h1 : '+' ∉ l1) (h2 : '+' ∉ l2) :
    '+' ∉ l1 ++ l2 := by
  intro hmem
  rcases List.mem_append.mp hmem with h | h
  exacts [h1 h, h2 h]

/-- The zone-free part of the ISO timestamp contains no `+`. -/
theorem isoChars_ne_plus (micros : Nat) : '+' ∉ isoChars micros := by
  have hif : '+' ∉ (if micros % 1000000 = 0 then ([] : List Char)
      else '.' :: padZeros 6 (natChars (micros % 1000000))) := by
    split_ifs
    · simp
    · intro hmem
      rcases List.mem_cons.mp hmem with h | h
      · exact absurd h (by decide)
      · exact padZeros_ne_plus _ _ (natChars_ne_plus _) h
  simp only [isoChars]
  exact not_plus_append (not_plus_append (not_plus_append (not_plus_append
    (not_plus_append (not_plus_append (not_plus_append (not_plus_append
    (not_plus_append (not_plus_append (not_plus_append
      (padZeros_ne_plus _ _ (natChars_ne_plus _)) (by decide))
      (padZeros_ne_plus _ _ (natChars_ne_plus _))) (by decide))
      (padZeros_ne_plus _ _ (natChars_ne_plus _))) (by decide))
      (padZeros_ne_plus _ _ (natChars_ne_plus _))) (by decide))
      (padZeros_ne_plus _ _ (natChars_ne_plus _))) (by decide))
      (padZeros_ne_plus _ _ (natChars_ne_plus _))) hif

/-- Replacing in the empty list yields the empty list at any fuel. -/
theorem replaceAllAux_nil (pat rep : List Char) (fuel : Nat) :
    replaceAllAux pat rep fuel [] = [] := by
  cases fuel <;> rfl

/-- On a string that is `xs` followed by exactly one occurrence of
`+00:00` (with no `+` in `xs`), `str.replace` rewrites just that
suffix. -/
theorem replaceAllAux_zone (rep : List Char) :
    ∀ (xs : List Char) (fuel : Nat),
    (xs ++ ('+' :: "00:00".data)).length ≤ fuel → '+' ∉ xs →
    replaceAllAux ('+' :: "00:00".data) rep fuel (xs ++ ('+' :: "00:00".data)) =
      xs ++ rep := by
  intro xs
  induction xs with
  | nil =>
    intro fuel hfuel _
    cases fuel with
    | zero => simp at hfuel
    | succ f =>
      show replaceAllAux _ _ (f + 1) ('+' :: "00:00".data) = rep
      unfold replaceAllAux
      rw [if_pos ⟨by decide, by decide⟩]
      have hdrop : List.drop (('+' :: "00:00".data).length - 1) "00:00".data = [] :=
        rfl
      rw [hdrop, replaceAllAux_nil]
      simp
  | cons c xs ih =>
    intro fuel hfuel hplus
    have hne : c ≠ '+' := fun h => hplus (h ▸ List.mem_cons_self _ _)
    have hc : ('+' == c) = false := beq_eq_false_iff_ne.mpr (Ne.symm hne)
    cases fuel with
    | zero => simp at hfuel
    | succ f =>
      have hpre : (('+' :: "00:00".data).isPrefixOf
          (c :: (xs ++ ('+' :: "00:00".data)))) = false := by
        show (('+' == c) && _) = false
        rw [hc, Bool.false_and]
      show replaceAllAux _ _ (f + 1) (c :: (xs ++ ('+' :: "00:00".data))) =
        (c :: xs) ++ rep
      unfold replaceAllAux
      rw [if_neg (by simp [hpre])]
      have hlen : (xs ++ ('+' :: "00:00".data)).length ≤ f := by
        simp only [List.length_append, List.length_cons] at hfuel ⊢
        omega
      rw [ih f hlen (fun hm => hplus (List.mem_cons_of_mem _ hm))]
      simp

/-- C10: both `fileCreatedAt` and `fileModifiedAt` carry the same
value, the record's `modified_time` formatted by `_format_timestamp`
(the `UploadData` fields contain no separate creation time), and the
formatted value is the zone-free ISO rendering with a final `Z`. -/
theorem C10_upload_timestamps (md5hex : String → String) (f : FileInfo) :
    (upload_data md5hex f).fileCreatedAt = format_timestamp f.modified_time ∧
    (upload_data md5hex f).fileModifiedAt = format_timestamp f.modified_time ∧
    (format_timestamp f.modified_time).data =
      isoChars f.modified_time ++ ['Z'] := by
  refine ⟨rfl, rfl, ?_⟩
  simp only [format_timestamp, replaceAll]
  exact replaceAllAux_zone ['Z'] (isoChars f.modified_time)
    ((isoChars f.modified_time ++ ('+' :: "00:00".data)).length) le_rfl
    (isoChars_ne_plus f.modified_time)
